import Mathlib

/-!
Shallow embedding of the PyMes-Web backend services relevant to invoice
creation (`backend/src/services/invoiceService.ts`) and shift closeout
(`backend/src/services/authService.ts`), together with proofs about them.

Monetary amounts, quantities and stock levels are JavaScript numbers in the
service layer; they are modelled as rationals (`ℚ`).  Timestamps are modelled
as integers (epoch milliseconds).  Database access through Prisma is modelled
by explicit state passing over a `DB` record of tables; `prisma.$transaction`
is modelled by returning either the updated state (commit) or the original
state (rollback on a thrown error).
-/

namespace PymesWeb

/-! ### Definitions -/

/-- Invoice status enum (`InvoiceStatus` in the Prisma schema). -/
inductive InvoiceStatus where
  | DRAFT
  | ISSUED
  | PAID
  | CANCELLED
deriving DecidableEq, Repr

/-- Payment method enum (`PaymentMethod` in the Prisma schema). -/
inductive PaymentMethod where
  | CASH
  | CREDIT
  | TRANSFER
deriving DecidableEq, Repr

/-- A `Product` row (fields selected by `PRODUCT_FIELDS` in the invoice
service, plus `defaultTaxRate` which exists in the schema but is never
selected nor read by the invoice computation). -/
structure Product where
  id : String
  tenantId : String
  name : String
  price : ℚ
  cost : ℚ
  stock : ℚ
  defaultTaxRate : ℚ
  isActive : Bool
deriving DecidableEq, Repr

/-- An `InvoiceItem` row (fields of `INVOICE_ITEM_FIELDS` that carry data). -/
structure InvoiceItemRow where
  productId : String
  description : String
  quantity : ℚ
  unitPrice : ℚ
  taxRateApplied : ℚ
  taxAmount : ℚ
  totalAmount : ℚ
deriving DecidableEq, Repr

/-- An `Invoice` row (fields of `INVOICE_FIELDS` that carry data), with its
items inlined. -/
structure InvoiceRow where
  tenantId : String
  clientId : Option String
  number : String
  status : InvoiceStatus
  issueDate : ℤ
  dueDate : Option ℤ
  paymentMethod : PaymentMethod
  currency : String
  subtotal : ℚ
  taxTotal : ℚ
  total : ℚ
  totalPaid : ℚ
  isCreditSale : Bool
  notes : Option String
  createdById : Option String
  items : List InvoiceItemRow
deriving DecidableEq, Repr

/-- A `CashRegister` row. -/
structure CashRegister where
  id : ℤ
  tenantId : String
  name : String
  currentBalance : ℚ
  isActive : Bool
deriving DecidableEq, Repr

/-- A `ShiftCloseout` row. -/
structure ShiftCloseout where
  id : ℤ
  tenantId : String
  closingTime : ℤ
  cashRegisterId : ℤ
  startingBalance : ℚ
  finalBalance : ℚ
  salesTotal : ℚ
  closedByUserId : String
deriving DecidableEq, Repr

/-- The database state: one list per table, plus counters for the
`SERIAL` (autoincrement) primary keys of `CashRegister` and
`ShiftCloseout`. -/
structure DB where
  products : List Product
  invoices : List InvoiceRow
  registers : List CashRegister
  closeouts : List ShiftCloseout
  nextRegisterId : ℤ
  nextCloseoutId : ℤ
deriving DecidableEq, Repr

/-- The constant `IVA_RATE` from `backend/src/config/constants.ts` (19% Colombian VAT). -/
def IVA_RATE : ℚ := 0.19

/-- The constant `LOW_STOCK_THRESHOLD` from `backend/src/config/constants.ts`. -/
def LOW_STOCK_THRESHOLD : ℚ := 5

/-- One element of the `items` array of `CreateInvoiceInput`
(`InvoiceItemInput` in the invoice service). -/
structure InvoiceItemInput where
  productId : String
  quantity : ℚ
  description : Option String
  unitPrice : Option ℚ
  taxRate : Option ℚ
deriving DecidableEq, Repr

/-- The interface `CreateInvoiceInput` from the invoice service. -/
structure CreateInvoiceInput where
  clientId : Option String
  number : String
  items : List InvoiceItemInput
  issueDate : Option ℤ
  dueDate : Option ℤ
  status : Option InvoiceStatus
  paymentMethod : Option PaymentMethod
  currency : Option String
  isCreditSale : Option Bool
  notes : Option String
  createdById : Option String
  applyIva : Option Bool
deriving DecidableEq, Repr

/-- The distinct errors thrown by `createInvoice` (each constructor stands
for one `throw new Error(...)` site; the payload of `insufficientStock`
records the data interpolated into the message). -/
inductive InvoiceError where
  | numberRequired
  | noItems
  | duplicateNumber
  | productNotFound (productId : String)
  | productWrongTenant
  | insufficientStock (productName : String) (available requested : ℚ)
deriving DecidableEq, Repr

/-- The data interpolated into a low-stock warning string
(`¡Atención! El producto "<name>" se está agotando. Stock restante: <n>`). -/
structure LowStockWarning where
  productName : String
  remainingStock : ℚ
deriving DecidableEq, Repr

/-- One element of the `processedItems` array accumulated inside the
`createInvoice` transaction (the unused `product` back-reference is
dropped; `name` keeps the product name used in messages). -/
structure ProcessedItem where
  productId : String
  productName : String
  quantity : ℚ
  description : String
  unitPrice : ℚ
  taxRate : ℚ
  taxAmount : ℚ
  totalAmount : ℚ
  newStock : ℚ
deriving DecidableEq, Repr

/-- Models `tx.product.findUnique({ where: { id } })`. -/
def findProduct (products : List Product) (productId : String) : Option Product :=
  products.find? (fun p => p.id == productId)

/-- Models `tx.product.update({ where: { id }, data: { stock: newStock } })`. -/
def updateStock (products : List Product) (productId : String) (newStock : ℚ) :
    List Product :=
  products.map (fun p => if p.id == productId then { p with stock := newStock } else p)

/-- Models `item.unitPrice ? Number(item.unitPrice) : Number(product.price)`:
JavaScript truthiness means a supplied `0` falls back to `product.price`. -/
def resolveUnitPrice : Option ℚ → ℚ → ℚ
  | some v, price => if v = 0 then price else v
  | none, price => price

/-- Models `item.description || product.name` (an empty string is falsy). -/
def resolveDescription : Option String → String → String
  | some d, name => if d = "" then name else d
  | none, name => name

/-- The `for (const item of data.items)` loop inside the `createInvoice`
transaction: look the product up, check tenant ownership and stock, compute
the line amounts, write the decremented stock, and collect the low-stock
warnings (`newStock <= 5`). -/
def processItems (tenantId : String) (applyIva : Bool) :
    List Product → List InvoiceItemInput →
    Except InvoiceError (List Product × List ProcessedItem × List LowStockWarning)
  | prods, [] => .ok (prods, [], [])
  | prods, item :: rest =>
    match findProduct prods item.productId with
    | none => .error (.productNotFound item.productId)
    | some product =>
      if product.tenantId ≠ tenantId then .error .productWrongTenant
      else if product.stock < item.quantity then
        .error (.insufficientStock product.name product.stock item.quantity)
      else
        let unitPrice := resolveUnitPrice item.unitPrice product.price
        let subtotal := unitPrice * item.quantity
        let taxAmount := if applyIva then subtotal * IVA_RATE else 0
        let totalAmount := subtotal + taxAmount
        let newStock := product.stock - item.quantity
        let prods' := updateStock prods product.id newStock
        let warns : List LowStockWarning :=
          if newStock ≤ 5 then [⟨product.name, newStock⟩] else []
        match processItems tenantId applyIva prods' rest with
        | .error e => .error e
        | .ok (prods2, items2, warns2) =>
          .ok (prods2,
               ⟨product.id, product.name, item.quantity,
                resolveDescription item.description product.name, unitPrice,
                IVA_RATE * 100, taxAmount, totalAmount, newStock⟩ :: items2,
               warns ++ warns2)

/-- The `InvoiceItem` row created for a processed item (`items.create`
inside `tx.invoice.create`). -/
def mkItemRow (applyIva : Bool) (p : ProcessedItem) : InvoiceItemRow :=
  { productId := p.productId
    description := p.description
    quantity := p.quantity
    unitPrice := p.unitPrice
    taxRateApplied := if applyIva then IVA_RATE * 100 else 0
    taxAmount := p.taxAmount
    totalAmount := p.totalAmount }

/-- The function `createInvoice(data, tenantId)`: validations, duplicate-number lookup,
then the `prisma.$transaction` body.  `now` stands for `new Date()`.  A
`.ok` result carries the state as committed by the transaction; a `.error`
result carries no state (the caller `createInvoiceRun` keeps the original
state, which is what the rollback of `$transaction` produces). -/
def createInvoice (db : DB) (data : CreateInvoiceInput) (tenantId : String)
    (now : ℤ) :
    Except InvoiceError (DB × InvoiceRow × List LowStockWarning) :=
  if data.number.trim = "" then .error .numberRequired
  else if data.items.isEmpty then .error .noItems
  else if db.invoices.any
      (fun inv => inv.tenantId == tenantId && inv.number == data.number.trim) then
    .error .duplicateNumber
  else
    match processItems tenantId (data.applyIva == some true) db.products data.items with
    | .error e => .error e
    | .ok (prods2, processed, warns) =>
      let subtotal := processed.foldl (fun s it => s + it.unitPrice * it.quantity) 0
      let impuestoTotal := processed.foldl (fun s it => s + it.taxAmount) 0
      let finalTotal := subtotal + impuestoTotal
      let invoice : InvoiceRow :=
        { tenantId := tenantId
          clientId := data.clientId
          number := data.number.trim
          status := data.status.getD .DRAFT
          issueDate := data.issueDate.getD now
          dueDate := data.dueDate
          paymentMethod := data.paymentMethod.getD .CASH
          currency := resolveDescription data.currency "COP"
          subtotal := subtotal
          taxTotal := impuestoTotal
          total := finalTotal
          totalPaid := 0
          isCreditSale := data.isCreditSale.getD false
          notes := data.notes
          createdById := data.createdById
          items := processed.map (mkItemRow (data.applyIva == some true)) }
      .ok ({ db with products := prods2, invoices := invoice :: db.invoices },
           invoice, warns)

/-- A whole `createInvoice` call as a state transformer: a thrown error
leaves the database exactly as before the call, because every write happens
inside `prisma.$transaction` and the pre-transaction steps only read. -/
def createInvoiceRun (db : DB) (data : CreateInvoiceInput) (tenantId : String)
    (now : ℤ) :
    Except InvoiceError (InvoiceRow × List LowStockWarning) × DB :=
  match createInvoice db data tenantId now with
  | .error e => (.error e, db)
  | .ok (db2, inv, warns) => (.ok (inv, warns), db2)

/-- The `where` clause built by `calculateSalesSinceLastCloseout`: same
tenant, status in `{ISSUED, PAID}`, and — only when a prior closeout exists —
`issueDate >= lastCloseoutDate`.  The payment method is deliberately not
part of the filter. -/
def salesWhere (tenantId : String) (lastCloseoutDate : Option ℤ) (inv : InvoiceRow) :
    Bool :=
  inv.tenantId == tenantId
    && (inv.status == .ISSUED || inv.status == .PAID)
    && (match lastCloseoutDate with
        | some d => decide (d ≤ inv.issueDate)
        | none => true)

/-- The function `calculateSalesSinceLastCloseout`.
`queryFault := some msg` models the Prisma query throwing an error with that
message: the `catch` block returns `0` on every branch (both for
missing-table error codes and, per the final fallback, for any other error),
so the closeout can continue.  `cashRegisterId` is a parameter of the source
function that the query never uses. -/
def calculateSalesSinceLastCloseout (invoices : List InvoiceRow) (tenantId : String)
    (cashRegisterId : ℤ) (lastCloseoutDate : Option ℤ) (queryFault : Option String) :
    ℚ :=
  match queryFault with
  | some _ => 0
  | none =>
    (invoices.filter (salesWhere tenantId lastCloseoutDate)).foldl
      (fun sum inv => sum + inv.total) 0

/-- The `prisma.shiftCloseout.findFirst` call of `closeDayShift`: among the
rows matching the tenant and register, the first under a stable descending
sort on `closingTime`, i.e. the first row attaining the maximal
`closingTime`. -/
def lastCloseoutFor (closeouts : List ShiftCloseout) (tenantId : String)
    (cashRegisterId : ℤ) : Option ShiftCloseout :=
  (closeouts.filter
      (fun c => c.tenantId == tenantId && c.cashRegisterId == cashRegisterId)).foldl
    (fun best c =>
      match best with
      | none => some c
      | some b => if b.closingTime < c.closingTime then some c else some b)
    none

/-- The record returned by `closeDayShift`. -/
structure CloseShiftResult where
  id : ℤ
  closingTime : ℤ
  salesTotal : ℚ
  startingBalance : ℚ
  finalBalance : ℚ
deriving DecidableEq, Repr

/-- Errors surfaced by `closeDayShift` in the modelled fragment: the final
`prisma.cashRegister.update({ where: { id: cashRegisterId } })` throws
(Prisma `P2025`) when no register row has that id. -/
inductive ShiftError where
  | registerUpdateNotFound
deriving DecidableEq, Repr

/-- Models `prisma.cashRegister.update({ where: { id } })`: throws when no row
matches, otherwise applies the update to the matching row. -/
def updateRegister (registers : List CashRegister) (registerId : ℤ)
    (f : CashRegister → CashRegister) : Except ShiftError (List CashRegister) :=
  if registers.any (fun r => r.id == registerId) then
    .ok (registers.map (fun r => if r.id == registerId then f r else r))
  else .error .registerUpdateNotFound

/-- The `calculatedStartingBalance` block of `closeDayShift`: the caller
value when provided, else the prior closeout's `finalBalance`, else the
resolved register's `currentBalance`. -/
def resolveStartingBalance (startingBalance : Option ℚ)
    (lastCloseout : Option ShiftCloseout) (registerBalance : ℚ) : ℚ :=
  match startingBalance with
  | some v => v
  | none =>
    match lastCloseout with
    | some c => c.finalBalance
    | none => registerBalance

/-- Steps 4–9 of `closeDayShift` once the cash register has been resolved:
find the last closeout, resolve the starting balance (caller value, else the
prior closeout's `finalBalance`, else the register's `currentBalance`),
compute the sales total, create the `ShiftCloseout` row, then reset the
register's balance to `0`.  The closeout row is created before the final
register update and outside any transaction, so on an update failure the
error carries the state with the closeout already persisted. -/
def finishCloseout (db : DB) (tenantId : String) (cashRegisterId : ℤ)
    (userId : String) (finalBalance : ℚ) (startingBalance : Option ℚ) (now : ℤ)
    (queryFault : Option String) (cashRegister : CashRegister) :
    Except ShiftError CloseShiftResult × DB :=
  let lastCloseout := lastCloseoutFor db.closeouts tenantId cashRegisterId
  let calculatedStartingBalance :=
    resolveStartingBalance startingBalance lastCloseout cashRegister.currentBalance
  let salesTotal := calculateSalesSinceLastCloseout db.invoices tenantId
    cashRegisterId (lastCloseout.map ShiftCloseout.closingTime) queryFault
  let closeout : ShiftCloseout :=
    { id := db.nextCloseoutId
      tenantId := tenantId
      closingTime := now
      cashRegisterId := cashRegisterId
      startingBalance := calculatedStartingBalance
      finalBalance := finalBalance
      salesTotal := salesTotal
      closedByUserId := userId }
  let db2 : DB :=
    { db with
      closeouts := db.closeouts ++ [closeout]
      nextCloseoutId := db.nextCloseoutId + 1 }
  match updateRegister db2.registers cashRegisterId
      (fun r => { r with currentBalance := 0 }) with
  | .error e => (.error e, db2)
  | .ok regs =>
    (.ok { id := closeout.id
           closingTime := closeout.closingTime
           salesTotal := closeout.salesTotal
           startingBalance := closeout.startingBalance
           finalBalance := closeout.finalBalance },
     { db2 with registers := regs })

/-- The function `closeDayShift(tenantId, cashRegisterId, userId,
finalBalance, startingBalance?)`.  Steps 1–3: find the register by id and tenant, create it
(with a fresh `SERIAL` id and `currentBalance: 0`) when missing, re-activate
it (update keyed on `id` only) when inactive; then hand over to
`finishCloseout`.  `now` stands for `new Date()`; `queryFault` is threaded to
the sales aggregation. -/
def closeDayShift (db : DB) (tenantId : String) (cashRegisterId : ℤ)
    (userId : String) (finalBalance : ℚ) (startingBalance : Option ℚ) (now : ℤ)
    (queryFault : Option String) : Except ShiftError CloseShiftResult × DB :=
  match db.registers.find?
      (fun r => r.id == cashRegisterId && r.tenantId == tenantId) with
  | some r =>
    if r.isActive then
      finishCloseout db tenantId cashRegisterId userId finalBalance
        startingBalance now queryFault r
    else
      finishCloseout
        { db with
          registers := db.registers.map
            (fun x => if x.id == cashRegisterId then { x with isActive := true } else x) }
        tenantId cashRegisterId userId finalBalance startingBalance now queryFault
        { r with isActive := true }
  | none =>
    let created : CashRegister :=
      { id := db.nextRegisterId
        tenantId := tenantId
        name := "Caja " ++ toString cashRegisterId
        currentBalance := 0
        isActive := true }
    finishCloseout
      { db with
        registers := db.registers ++ [created]
        nextRegisterId := db.nextRegisterId + 1 }
      tenantId cashRegisterId userId finalBalance startingBalance now queryFault
      created

/-- The price a product lookup yields for a given id. -/
def priceOf (prods : List Product) (productId : String) : Option ℚ :=
  (findProduct prods productId).map Product.price

/-- What one processed item satisfies, relative to the product table `prods`
as it stood when processing started: ids and quantities are copied from the
request, the unit price is the request's price resolved (JS-truthily)
against the product's price, and the line amounts follow the flat-IVA
formula. -/
def processedItemSpec (iva : Bool) (prods : List Product)
    (src : InvoiceItemInput) (p : ProcessedItem) : Prop :=
  p.productId = src.productId ∧
  p.quantity = src.quantity ∧
  (∃ q, priceOf prods src.productId = some q ∧
    p.unitPrice = resolveUnitPrice src.unitPrice q) ∧
  p.taxAmount = (if iva then p.unitPrice * p.quantity * IVA_RATE else 0) ∧
  p.totalAmount = p.unitPrice * p.quantity + p.taxAmount

/-- Whether an `Except` computation succeeded. -/
def exceptIsOk {ε α : Type} : Except ε α → Bool
  | .ok _ => true
  | .error _ => false

/-- The pure validation content of the item loop: every item's product
exists, belongs to the tenant, and has enough stock — tracking the stock
decrements of the earlier items.  No mention of any low-stock threshold. -/
def itemsValid (tenantId : String) : List Product → List InvoiceItemInput → Bool
  | _, [] => true
  | prods, item :: rest =>
    match findProduct prods item.productId with
    | none => false
    | some p =>
      p.tenantId == tenantId && !(decide (p.stock < item.quantity))
        && itemsValid tenantId (updateStock prods p.id (p.stock - item.quantity)) rest

/-- Overwrite a product's `defaultTaxRate` as a function of its id. -/
def setDefaultTaxRate (g : String → ℚ) (p : Product) : Product :=
  { p with defaultTaxRate := g p.id }

@[simp] theorem setDefaultTaxRate_id (g : String → ℚ) (p : Product) :
    (setDefaultTaxRate g p).id = p.id := rfl

@[simp] theorem setDefaultTaxRate_tenantId (g : String → ℚ) (p : Product) :
    (setDefaultTaxRate g p).tenantId = p.tenantId := rfl

@[simp] theorem setDefaultTaxRate_name (g : String → ℚ) (p : Product) :
    (setDefaultTaxRate g p).name = p.name := rfl

@[simp] theorem setDefaultTaxRate_price (g : String → ℚ) (p : Product) :
    (setDefaultTaxRate g p).price = p.price := rfl

@[simp] theorem setDefaultTaxRate_stock (g : String → ℚ) (p : Product) :
    (setDefaultTaxRate g p).stock = p.stock := rfl

/-- The balance of the register `closeDayShift` resolves: the looked-up
register's `currentBalance`, or `0` for the register it creates when the
lookup finds none. -/
def registerBalanceView (db : DB) (t : String) (regId : ℤ) : ℚ :=
  match db.registers.find? (fun r => r.id == regId && r.tenantId == t) with
  | some r => r.currentBalance
  | none => 0

/-- The acceptance condition of `createInvoice`, with no reference to any
low-stock threshold or warning. -/
def createInvoiceAccepts (db : DB) (data : CreateInvoiceInput) (tenantId : String) :
    Bool :=
  !(data.number.trim == "") && !data.items.isEmpty
    && !(db.invoices.any
        (fun inv => inv.tenantId == tenantId && inv.number == data.number.trim))
    && itemsValid tenantId db.products data.items

/-- Fixture for C7: a product priced 100 with plenty of stock. -/
def cexProduct : Product :=
  { id := "p1"
    tenantId := "t1"
    name := "Widget"
    price := 100
    cost := 40
    stock := 10
    defaultTaxRate := 19
    isActive := true }

/-- Fixture for C7: a database holding only `cexProduct`. -/
def cexDB : DB :=
  { products := [cexProduct]
    invoices := []
    registers := []
    closeouts := []
    nextRegisterId := 1
    nextCloseoutId := 1 }

/-- Fixture for C7: one item explicitly priced at `0`. -/
def cexItemZero : InvoiceItemInput :=
  { productId := "p1"
    quantity := 1
    description := none
    unitPrice := some 0
    taxRate := none }

/-- Fixture for C7: a one-item invoice request carrying `cexItemZero`. -/
def cexInputZero : CreateInvoiceInput :=
  { clientId := none
    number := "F-1"
    items := [cexItemZero]
    issueDate := none
    dueDate := none
    status := none
    paymentMethod := none
    currency := none
    isCreditSale := none
    notes := none
    createdById := none
    applyIva := some false }

/-- An active product of tenant `t1`. -/
def exProduct (id name : String) (price stock : ℚ) : Product :=
  { id := id
    tenantId := "t1"
    name := name
    price := price
    cost := 0
    stock := stock
    defaultTaxRate := 19
    isActive := true }

/-- A plain request item: quantity only. -/
def exItem (productId : String) (quantity : ℚ) : InvoiceItemInput :=
  { productId := productId
    quantity := quantity
    description := none
    unitPrice := none
    taxRate := none }

/-- A minimal invoice request. -/
def exInput (number : String) (items : List InvoiceItemInput) (applyIva : Bool) :
    CreateInvoiceInput :=
  { clientId := none
    number := number
    items := items
    issueDate := none
    dueDate := none
    status := none
    paymentMethod := none
    currency := none
    isCreditSale := none
    notes := none
    createdById := none
    applyIva := some applyIva }

/-- A database holding only the given products. -/
def exDBOf (products : List Product) : DB :=
  { products := products
    invoices := []
    registers := []
    closeouts := []
    nextRegisterId := 1
    nextCloseoutId := 1 }

def w1DB : DB := exDBOf [exProduct "a" "Arroz" 100 3]

def w1Input : CreateInvoiceInput := exInput "W1" [exItem "a" 2] false

def w2DB : DB := exDBOf [exProduct "a" "Arroz" 10 5, exProduct "b" "Frijol" 10 1]

def w2Input : CreateInvoiceInput := exInput "W2" [exItem "a" 2, exItem "b" 5] false

def w3DB : DB := exDBOf [exProduct "a" "Arroz" 100 10, exProduct "b" "Frijol" 50 8]

def w3Input : CreateInvoiceInput := exInput "W3" [exItem "a" 2, exItem "b" 1] true

def w4Inv1 : InvoiceRow :=
  { tenantId := "t1"
    clientId := none
    number := "N1"
    status := .PAID
    issueDate := 150
    dueDate := none
    paymentMethod := .CASH
    currency := "COP"
    subtotal := 200
    taxTotal := 0
    total := 200
    totalPaid := 0
    isCreditSale := false
    notes := none
    createdById := none
    items := [] }

def w4Inv2 : InvoiceRow :=
  { w4Inv1 with
    number := "N2"
    status := .DRAFT
    total := 999 }

def w4Inv3 : InvoiceRow :=
  { w4Inv1 with
    number := "N3"
    status := .ISSUED
    issueDate := 50
    total := 70
    paymentMethod := .TRANSFER }

def w4Reg : CashRegister :=
  { id := 7, tenantId := "t1", name := "Caja 7", currentBalance := 42, isActive := true }

def w4Close : ShiftCloseout :=
  { id := 1
    tenantId := "t1"
    closingTime := 100
    cashRegisterId := 7
    startingBalance := 10
    finalBalance := 500
    salesTotal := 0
    closedByUserId := "u" }

def w4DB : DB :=
  { products := []
    invoices := [w4Inv1, w4Inv2, w4Inv3]
    registers := [w4Reg]
    closeouts := [w4Close]
    nextRegisterId := 8
    nextCloseoutId := 2 }

def w5DB : DB := { w4DB with invoices := [] }

def w6DB : DB := exDBOf [exProduct "a" "Arroz" 100 10]

def w6Input : CreateInvoiceInput := exInput "W6" [exItem "a" 2] true

def w7DB : DB := exDBOf [exProduct "a" "Arroz" 100 10]

def w7Input : CreateInvoiceInput :=
  exInput "W7"
    [{ exItem "a" 1 with unitPrice := some 50 }, exItem "a" 1] false

def w8DB : DB := exDBOf [exProduct "a" "Arroz" 10 6, exProduct "b" "Frijol" 10 10]

def w8Input : CreateInvoiceInput := exInput "W8" [exItem "a" 2, exItem "b" 2] false

def w9Existing : InvoiceRow := { w4Inv1 with number := "F1" }

def w9DB : DB :=
  { products := [exProduct "a" "Arroz" 10 5]
    invoices := [w9Existing]
    registers := []
    closeouts := []
    nextRegisterId := 1
    nextCloseoutId := 1 }

def w9Input : CreateInvoiceInput := exInput "F1" [exItem "a" 1] false

def w10Reg : CashRegister :=
  { id := 3, tenantId := "t1", name := "Caja 3", currentBalance := 42, isActive := true }

def w10DB : DB :=
  { products := []
    invoices := [{ w4Inv1 with number := "N9" }]
    registers := [w10Reg]
    closeouts := []
    nextRegisterId := 4
    nextCloseoutId := 1 }

/-! ### Theorems -/

/-- A stock update rewrites the looked-up row but touches no other field. -/
theorem findProduct_updateStock (prods : List Product) (productId : String) (s : ℚ)
    (x : String) :
    findProduct (updateStock prods productId s) x
      = (findProduct prods x).map
          (fun p => if p.id == productId then { p with stock := s } else p) := by
  unfold findProduct updateStock
  rw [List.find?_map]
  have hpred :
      ((fun q : Product => q.id == x) ∘
        fun p : Product => if p.id == productId then { p with stock := s } else p)
        = fun p : Product => p.id == x := by
    funext p
    by_cases h : p.id == productId <;> simp [Function.comp, h]
  rw [hpred]

/-- Stock updates do not change the price any lookup returns. -/
theorem priceOf_updateStock (prods : List Product) (productId : String) (s : ℚ)
    (x : String) :
    priceOf (updateStock prods productId s) x = priceOf prods x := by
  unfold priceOf
  rw [findProduct_updateStock]
  cases h : findProduct prods x with
  | none => rfl
  | some p =>
    by_cases hid : p.id = productId <;> simp [hid]

/-- If the new stock value is nonnegative, a stock update preserves
nonnegativity of every row's stock. -/
theorem updateStock_stock_nonneg {prods : List Product} {productId : String}
    {s : ℚ} (hs : 0 ≤ s) (h : ∀ p ∈ prods, 0 ≤ p.stock) :
    ∀ p ∈ updateStock prods productId s, 0 ≤ p.stock := by
  intro p hp
  unfold updateStock at hp
  rcases List.mem_map.1 hp with ⟨q, hq, rfl⟩
  by_cases hid : q.id == productId <;> simp [hid]
  · exact hs
  · exact h q hq

/-- Folding `+ f x` from an accumulator computes the accumulator plus the
sum of the mapped list. -/
theorem foldl_add_map {α : Type} (f : α → ℚ) :
    ∀ (l : List α) (a : ℚ), l.foldl (fun s it => s + f it) a = a + (l.map f).sum
  | [], a => by simp
  | x :: xs, a => by
    rw [List.foldl_cons, foldl_add_map f xs (a + f x)]
    simp [add_assoc]

/-- Processing the items never drives any stock below zero: each step checks
`product.stock < quantity` before writing `stock - quantity`. -/
theorem processItems_stock_nonneg (t : String) (iva : Bool) :
    ∀ (items : List InvoiceItemInput) (prods prods2 : List Product)
      (ps : List ProcessedItem) (ws : List LowStockWarning),
      processItems t iva prods items = .ok (prods2, ps, ws) →
      (∀ p ∈ prods, 0 ≤ p.stock) → ∀ p ∈ prods2, 0 ≤ p.stock := by
  intro items
  induction items with
  | nil =>
    intro prods prods2 ps ws h hn
    simp only [processItems, Except.ok.injEq, Prod.mk.injEq] at h
    obtain ⟨rfl, -, -⟩ := h
    exact hn
  | cons item rest ih =>
    intro prods prods2 ps ws h hn
    simp only [processItems] at h
    split at h
    · exact absurd h (by simp)
    rename_i product hfp
    split at h
    · exact absurd h (by simp)
    rename_i htn
    split at h
    · exact absurd h (by simp)
    rename_i hst
    split at h
    · exact absurd h (by simp)
    rename_i prodsr psr wsr hrec
    simp only [Except.ok.injEq, Prod.mk.injEq] at h
    obtain ⟨rfl, -, -⟩ := h
    refine ih _ _ _ _ hrec (updateStock_stock_nonneg ?_ hn)
    have := not_lt.1 hst
    linarith

/-- Each processed item satisfies `processedItemSpec` against the initial
product table (stock updates along the way do not disturb price lookups). -/
theorem processItems_spec (t : String) (iva : Bool) :
    ∀ (items : List InvoiceItemInput) (prods prods2 : List Product)
      (ps : List ProcessedItem) (ws : List LowStockWarning),
      processItems t iva prods items = .ok (prods2, ps, ws) →
      List.Forall₂ (processedItemSpec iva prods) items ps := by
  intro items
  induction items with
  | nil =>
    intro prods prods2 ps ws h
    simp only [processItems, Except.ok.injEq, Prod.mk.injEq] at h
    obtain ⟨-, rfl, -⟩ := h
    exact List.Forall₂.nil
  | cons item rest ih =>
    intro prods prods2 ps ws h
    simp only [processItems] at h
    split at h
    · exact absurd h (by simp)
    rename_i product hfp
    split at h
    · exact absurd h (by simp)
    rename_i htn
    split at h
    · exact absurd h (by simp)
    rename_i hst
    split at h
    · exact absurd h (by simp)
    rename_i prodsr psr wsr hrec
    simp only [Except.ok.injEq, Prod.mk.injEq] at h
    obtain ⟨-, rfl, -⟩ := h
    have hid : product.id = item.productId := by
      have := List.find?_some hfp
      exact beq_iff_eq.1 this
    refine List.Forall₂.cons ?_ ?_
    · refine ⟨hid, rfl, ⟨product.price, ?_, rfl⟩, ?_, rfl⟩
      · unfold priceOf
        rw [hfp]
        rfl
      · cases iva <;> rfl
    · refine (ih _ _ _ _ hrec).imp ?_
      intro src p hsp
      obtain ⟨h1, h2, ⟨q, hq, hup⟩, h4, h5⟩ := hsp
      rw [priceOf_updateStock] at hq
      exact ⟨h1, h2, ⟨q, hq, hup⟩, h4, h5⟩

/-- The warnings collected by the loop are exactly one entry per processed
item whose post-decrement stock is at or below the threshold, in item
order. -/
theorem processItems_warnings (t : String) (iva : Bool) :
    ∀ (items : List InvoiceItemInput) (prods prods2 : List Product)
      (ps : List ProcessedItem) (ws : List LowStockWarning),
      processItems t iva prods items = .ok (prods2, ps, ws) →
      ws = (ps.filter (fun p => decide (p.newStock ≤ LOW_STOCK_THRESHOLD))).map
          (fun p => ⟨p.productName, p.newStock⟩) := by
  intro items
  induction items with
  | nil =>
    intro prods prods2 ps ws h
    simp only [processItems, Except.ok.injEq, Prod.mk.injEq] at h
    obtain ⟨-, rfl, rfl⟩ := h
    rfl
  | cons item rest ih =>
    intro prods prods2 ps ws h
    simp only [processItems] at h
    split at h
    · exact absurd h (by simp)
    rename_i product hfp
    split at h
    · exact absurd h (by simp)
    rename_i htn
    split at h
    · exact absurd h (by simp)
    rename_i hst
    split at h
    · exact absurd h (by simp)
    rename_i prodsr psr wsr hrec
    simp only [Except.ok.injEq, Prod.mk.injEq] at h
    obtain ⟨-, rfl, rfl⟩ := h
    by_cases hls : product.stock - item.quantity ≤ 5 <;>
      simp [List.filter_cons, LOW_STOCK_THRESHOLD, hls, ih _ _ _ _ hrec]

/-- The item loop succeeds exactly when the validation predicate holds; in
particular low stock left after a decrement never fails the loop. -/
theorem processItems_isOk (t : String) (iva : Bool) :
    ∀ (items : List InvoiceItemInput) (prods : List Product),
      exceptIsOk (processItems t iva prods items) = itemsValid t prods items := by
  intro items
  induction items with
  | nil => intro prods; rfl
  | cons item rest ih =>
    intro prods
    simp only [processItems, itemsValid]
    cases hfp : findProduct prods item.productId with
    | none => rfl
    | some product =>
      by_cases htn : product.tenantId ≠ t
      · have : (product.tenantId == t) = false := by
          simp [htn]
        simp [htn, this, exceptIsOk]
      · have htt : (product.tenantId == t) = true := by
          simp at htn
          simp [htn]
        by_cases hst : product.stock < item.quantity
        · simp [htn, htt, hst, exceptIsOk]
        · simp only [if_neg htn, if_neg hst, htt, Bool.true_and]
          have : (decide (product.stock < item.quantity)) = false := by
            simp [hst]
          rw [this]
          simp only [Bool.not_false, Bool.true_and]
          cases hrec : processItems t iva
              (updateStock prods product.id (product.stock - item.quantity)) rest with
          | error e =>
            have := ih (updateStock prods product.id (product.stock - item.quantity))
            rw [hrec] at this
            simpa [exceptIsOk] using this.symm
          | ok res =>
            obtain ⟨a, b, c⟩ := res
            have := ih (updateStock prods product.id (product.stock - item.quantity))
            rw [hrec] at this
            simpa [exceptIsOk] using this.symm

/-- The item loop never reads the per-item `taxRate` field: rewriting it
arbitrarily changes nothing. -/
theorem processItems_taxRate_irrelevant (t : String) (iva : Bool)
    (f : InvoiceItemInput → Option ℚ) :
    ∀ (items : List InvoiceItemInput) (prods : List Product),
      processItems t iva prods (items.map (fun i => { i with taxRate := f i }))
        = processItems t iva prods items := by
  intro items
  induction items with
  | nil => intro prods; rfl
  | cons item rest ih =>
    intro prods
    simp only [List.map_cons, processItems]
    cases hfp : findProduct prods item.productId with
    | none => rfl
    | some product =>
      by_cases htn : product.tenantId ≠ t
      · simp [htn]
      by_cases hst : product.stock < item.quantity
      · simp [htn, hst]
      simp only [if_neg htn, if_neg hst]
      rw [ih]

theorem findProduct_setDefaultTaxRate (g : String → ℚ) (prods : List Product)
    (x : String) :
    findProduct (prods.map (setDefaultTaxRate g)) x
      = (findProduct prods x).map (setDefaultTaxRate g) := by
  unfold findProduct
  rw [List.find?_map]
  rfl

theorem updateStock_setDefaultTaxRate (g : String → ℚ) (prods : List Product)
    (productId : String) (s : ℚ) :
    updateStock (prods.map (setDefaultTaxRate g)) productId s
      = (updateStock prods productId s).map (setDefaultTaxRate g) := by
  unfold updateStock
  rw [List.map_map, List.map_map]
  congr 1
  funext p
  by_cases hid : p.id = productId <;> simp [Function.comp, setDefaultTaxRate, hid]

/-- The per-product `defaultTaxRate` column (present in the schema but never
selected by the invoice service) is invisible to the item loop: remapping it
by product id commutes with processing and leaves the processed items and
warnings unchanged. -/
theorem processItems_defaultTaxRate_irrelevant (t : String) (iva : Bool)
    (g : String → ℚ) :
    ∀ (items : List InvoiceItemInput) (prods : List Product),
      processItems t iva (prods.map (setDefaultTaxRate g)) items
        = (processItems t iva prods items).map
            (fun r => (r.1.map (setDefaultTaxRate g), r.2)) := by
  intro items
  induction items with
  | nil => intro prods; rfl
  | cons item rest ih =>
    intro prods
    cases hfp : findProduct prods item.productId with
    | none =>
      have h2 : findProduct (prods.map (setDefaultTaxRate g)) item.productId = none := by
        rw [findProduct_setDefaultTaxRate, hfp]
        rfl
      simp only [processItems, hfp, h2]
      rfl
    | some product =>
      have h2 : findProduct (prods.map (setDefaultTaxRate g)) item.productId
          = some (setDefaultTaxRate g product) := by
        rw [findProduct_setDefaultTaxRate, hfp]
        rfl
      simp only [processItems, hfp, h2, setDefaultTaxRate_id,
        setDefaultTaxRate_tenantId, setDefaultTaxRate_name, setDefaultTaxRate_price,
        setDefaultTaxRate_stock]
      by_cases htn : product.tenantId ≠ t
      · simp [htn, Except.map]
      by_cases hst : product.stock < item.quantity
      · simp [htn, hst, Except.map]
      simp only [if_neg htn, if_neg hst]
      rw [updateStock_setDefaultTaxRate, ih]
      cases hrec : processItems t iva
          (updateStock prods product.id (product.stock - item.quantity)) rest with
      | error e => rfl
      | ok res =>
        obtain ⟨a, b, c⟩ := res
        rfl

/-- Inversion of a successful `createInvoice`: everything the committed
state and returned invoice contain, in terms of the item loop's output. -/
theorem createInvoice_ok_elim {db : DB} {data : CreateInvoiceInput} {t : String}
    {now : ℤ} {db2 : DB} {inv : InvoiceRow} {warns : List LowStockWarning}
    (h : createInvoice db data t now = .ok (db2, inv, warns)) :
    ∃ ps : List ProcessedItem,
      processItems t (data.applyIva == some true) db.products data.items
        = .ok (db2.products, ps, warns) ∧
      db2.invoices = inv :: db.invoices ∧
      db2.registers = db.registers ∧
      db2.closeouts = db.closeouts ∧
      inv.items = ps.map (mkItemRow (data.applyIva == some true)) ∧
      inv.subtotal = ps.foldl (fun s it => s + it.unitPrice * it.quantity) 0 ∧
      inv.taxTotal = ps.foldl (fun s it => s + it.taxAmount) 0 ∧
      inv.total = inv.subtotal + inv.taxTotal ∧
      inv.tenantId = t ∧
      inv.number = data.number.trim ∧
      inv.totalPaid = 0 := by
  unfold createInvoice at h
  split at h
  · exact absurd h (by simp)
  split at h
  · exact absurd h (by simp)
  split at h
  · exact absurd h (by simp)
  split at h
  · exact absurd h (by simp)
  rename_i prods2 ps ws hpi
  simp only [Except.ok.injEq, Prod.mk.injEq] at h
  obtain ⟨hdb, hinv, hws⟩ := h
  subst hdb hinv hws
  exact ⟨ps, hpi, rfl, rfl, rfl, rfl, rfl, rfl, rfl, rfl, rfl, rfl⟩

/-- A `createInvoiceRun` that returns `.ok` comes from a `createInvoice`
that committed. -/
theorem createInvoiceRun_ok_elim {db : DB} {data : CreateInvoiceInput} {t : String}
    {now : ℤ} {db2 : DB} {inv : InvoiceRow} {warns : List LowStockWarning}
    (h : createInvoiceRun db data t now = (.ok (inv, warns), db2)) :
    createInvoice db data t now = .ok (db2, inv, warns) := by
  unfold createInvoiceRun at h
  split at h
  · exact absurd h (by simp)
  rename_i dbr invr warnsr heq
  simp only [Prod.mk.injEq, Except.ok.injEq] at h
  obtain ⟨⟨rfl, rfl⟩, rfl⟩ := h
  exact heq

/-- A `createInvoiceRun` that throws leaves the database untouched: every
write is inside `prisma.$transaction`. -/
theorem createInvoiceRun_error_elim {db : DB} {data : CreateInvoiceInput}
    {t : String} {now : ℤ} {e : InvoiceError}
    (h : (createInvoiceRun db data t now).1 = .error e) :
    (createInvoiceRun db data t now).2 = db := by
  unfold createInvoiceRun at h ⊢
  split at h
  · rfl
  · exact absurd h (by simp)

/-- Inversion of a successful `finishCloseout`: the returned record and the
persisted `ShiftCloseout` row, in terms of the state at entry. -/
theorem finishCloseout_ok_elim {db : DB} {t : String} {regId : ℤ} {user : String}
    {fb : ℚ} {sbOpt : Option ℚ} {now : ℤ} {fault : Option String}
    {reg : CashRegister} {res : CloseShiftResult} {db2 : DB}
    (h : finishCloseout db t regId user fb sbOpt now fault reg = (.ok res, db2)) :
    res = { id := db.nextCloseoutId
            closingTime := now
            salesTotal := calculateSalesSinceLastCloseout db.invoices t regId
              ((lastCloseoutFor db.closeouts t regId).map ShiftCloseout.closingTime)
              fault
            startingBalance := resolveStartingBalance sbOpt
              (lastCloseoutFor db.closeouts t regId) reg.currentBalance
            finalBalance := fb } ∧
    db2.closeouts = db.closeouts ++
      [⟨db.nextCloseoutId, t, now, regId, res.startingBalance, fb, res.salesTotal,
        user⟩] ∧
    db2.invoices = db.invoices ∧
    db2.products = db.products := by
  simp only [finishCloseout] at h
  split at h
  · simp only [Prod.mk.injEq] at h
    exact absurd h.1 (by simp)
  rename_i regs hupd
  simp only [Prod.mk.injEq, Except.ok.injEq] at h
  obtain ⟨hres, hdb⟩ := h
  subst hdb
  subst hres
  exact ⟨rfl, rfl, rfl, rfl⟩

/-- Inversion of a successful `closeDayShift`, phrased against the state at
entry (register creation or re-activation only touches the register table,
so the closeout and invoice lookups are unaffected). -/
theorem closeDayShift_ok_elim {db : DB} {t : String} {regId : ℤ} {user : String}
    {fb : ℚ} {sbOpt : Option ℚ} {now : ℤ} {fault : Option String}
    {res : CloseShiftResult} {db2 : DB}
    (h : closeDayShift db t regId user fb sbOpt now fault = (.ok res, db2)) :
    res.closingTime = now ∧
    res.finalBalance = fb ∧
    res.salesTotal = calculateSalesSinceLastCloseout db.invoices t regId
      ((lastCloseoutFor db.closeouts t regId).map ShiftCloseout.closingTime) fault ∧
    res.startingBalance = resolveStartingBalance sbOpt
      (lastCloseoutFor db.closeouts t regId) (registerBalanceView db t regId) ∧
    (⟨db.nextCloseoutId, t, now, regId, res.startingBalance, fb, res.salesTotal,
      user⟩ : ShiftCloseout) ∈ db2.closeouts ∧
    db2.invoices = db.invoices ∧
    db2.products = db.products := by
  unfold closeDayShift at h
  split at h
  · rename_i r hfind
    have hview : registerBalanceView db t regId = r.currentBalance := by
      simp only [registerBalanceView, hfind]
    split at h
    · obtain ⟨hres, hclose, hinvs, hprods⟩ := finishCloseout_ok_elim h
      rw [hview]
      refine ⟨by rw [hres], by rw [hres], by rw [hres], by rw [hres], ?_, hinvs, hprods⟩
      rw [hclose]
      simp
    · obtain ⟨hres, hclose, hinvs, hprods⟩ := finishCloseout_ok_elim h
      rw [hview]
      refine ⟨by rw [hres], by rw [hres], by rw [hres], by rw [hres], ?_, hinvs, hprods⟩
      rw [hclose]
      simp
  · rename_i hfind
    have hview : registerBalanceView db t regId = 0 := by
      simp only [registerBalanceView, hfind]
    obtain ⟨hres, hclose, hinvs, hprods⟩ := finishCloseout_ok_elim h
    rw [hview]
    refine ⟨by rw [hres], by rw [hres], by rw [hres], by rw [hres], ?_, hinvs, hprods⟩
    rw [hclose]
    simp

/-- Without a query fault, the aggregation is the sum of `total` over the
filtered invoices. -/
theorem calculateSales_eq_sum (invoices : List InvoiceRow) (t : String) (regId : ℤ)
    (d : Option ℤ) :
    calculateSalesSinceLastCloseout invoices t regId d none
      = ((invoices.filter (salesWhere t d)).map InvoiceRow.total).sum := by
  unfold calculateSalesSinceLastCloseout
  rw [foldl_add_map InvoiceRow.total]
  simp

/-- Rewriting every invoice's payment method leaves the aggregation
unchanged: the filter never looks at it and the summed field is `total`. -/
theorem calculateSales_paymentMethod_irrelevant (invoices : List InvoiceRow)
    (t : String) (regId : ℤ) (d : Option ℤ) (fault : Option String)
    (pm : InvoiceRow → PaymentMethod) :
    calculateSalesSinceLastCloseout
        (invoices.map (fun i => { i with paymentMethod := pm i })) t regId d fault
      = calculateSalesSinceLastCloseout invoices t regId d fault := by
  cases fault with
  | some msg => rfl
  | none =>
    rw [calculateSales_eq_sum, calculateSales_eq_sum, List.filter_map, List.map_map]
    have hpred : (salesWhere t d ∘ fun i : InvoiceRow => { i with paymentMethod := pm i })
        = salesWhere t d := by
      funext i
      rfl
    rw [hpred]
    have hmap : (InvoiceRow.total ∘ fun i : InvoiceRow => { i with paymentMethod := pm i })
        = InvoiceRow.total := by
      funext i
      rfl
    rw [hmap]

/-- Appending invoices whose status is `DRAFT` or `CANCELLED` never changes
the aggregation. -/
theorem calculateSales_ignores_nonsales (invoices extra : List InvoiceRow)
    (t : String) (regId : ℤ) (d : Option ℤ)
    (hex : ∀ i ∈ extra, i.status = .DRAFT ∨ i.status = .CANCELLED) :
    calculateSalesSinceLastCloseout (invoices ++ extra) t regId d none
      = calculateSalesSinceLastCloseout invoices t regId d none := by
  rw [calculateSales_eq_sum, calculateSales_eq_sum, List.filter_append]
  have hnil : extra.filter (salesWhere t d) = [] := by
    rw [List.filter_eq_nil_iff]
    intro i hi
    rcases hex i hi with hst | hst <;> simp [salesWhere, hst]
  rw [hnil, List.append_nil]

/-- When the register lookup succeeds, `closeDayShift` always returns `.ok`
(in particular, whatever fault the sales aggregation swallows). -/
theorem closeDayShift_ok_of_register_found {db : DB} {t : String} {regId : ℤ}
    {r : CashRegister} (user : String) (fb : ℚ) (sbOpt : Option ℚ) (now : ℤ)
    (fault : Option String)
    (hfind : db.registers.find? (fun x => x.id == regId && x.tenantId == t) = some r) :
    ∃ res db2, closeDayShift db t regId user fb sbOpt now fault = (.ok res, db2) := by
  have hidr : (r.id == regId) = true := by
    have := List.find?_some hfind
    simp only [Bool.and_eq_true] at this
    exact this.1
  have hmem : r ∈ db.registers := List.mem_of_find?_eq_some hfind
  simp only [closeDayShift, hfind]
  split
  · have hany : (db.registers.any (fun x => x.id == regId)) = true := by
      rw [List.any_eq_true]
      exact ⟨r, hmem, hidr⟩
    simp only [finishCloseout, updateRegister, hany, if_true]
    exact ⟨_, _, rfl⟩
  · have hany : ((db.registers.map
        (fun x => if x.id == regId then { x with isActive := true } else x)).any
          (fun x => x.id == regId)) = true := by
      rw [List.any_map, List.any_eq_true]
      refine ⟨r, hmem, ?_⟩
      simp only [Function.comp]
      by_cases hid : r.id == regId <;> simp_all
    simp only [finishCloseout, updateRegister, hany, if_true]
    exact ⟨_, _, rfl⟩

/-- Per-item amount equations, membership form. -/
theorem processItems_amounts (t : String) (iva : Bool) :
    ∀ (items : List InvoiceItemInput) (prods prods2 : List Product)
      (ps : List ProcessedItem) (ws : List LowStockWarning),
      processItems t iva prods items = .ok (prods2, ps, ws) →
      ∀ p ∈ ps,
        p.taxAmount = (if iva then p.unitPrice * p.quantity * IVA_RATE else 0) ∧
        p.totalAmount = p.unitPrice * p.quantity + p.taxAmount := by
  intro items
  induction items with
  | nil =>
    intro prods prods2 ps ws h
    simp only [processItems, Except.ok.injEq, Prod.mk.injEq] at h
    obtain ⟨-, rfl, -⟩ := h
    intro p hp
    exact absurd hp (List.not_mem_nil p)
  | cons item rest ih =>
    intro prods prods2 ps ws h
    simp only [processItems] at h
    split at h
    · exact absurd h (by simp)
    rename_i product hfp
    split at h
    · exact absurd h (by simp)
    rename_i htn
    split at h
    · exact absurd h (by simp)
    rename_i hst
    split at h
    · exact absurd h (by simp)
    rename_i prodsr psr wsr hrec
    simp only [Except.ok.injEq, Prod.mk.injEq] at h
    obtain ⟨-, rfl, -⟩ := h
    intro p hp
    rcases List.mem_cons.1 hp with rfl | hp
    · refine ⟨?_, rfl⟩
      cases iva <;> rfl
    · exact ih _ _ _ _ hrec p hp

/-- An insufficient-stock error is honest: it is only thrown when the
available stock really was below the requested quantity. -/
theorem processItems_insufficient_elim (t : String) (iva : Bool) :
    ∀ (items : List InvoiceItemInput) (prods : List Product)
      (nm : String) (avail req : ℚ),
      processItems t iva prods items = .error (.insufficientStock nm avail req) →
      avail < req := by
  intro items
  induction items with
  | nil =>
    intro prods nm avail req h
    exact absurd h (by simp [processItems])
  | cons item rest ih =>
    intro prods nm avail req h
    simp only [processItems] at h
    split at h
    · simp only [Except.error.injEq] at h
      exact absurd h (by simp)
    rename_i product hfp
    split at h
    · simp only [Except.error.injEq] at h
      exact absurd h (by simp)
    rename_i htn
    split at h
    · rename_i hst
      simp only [Except.error.injEq, InvoiceError.insufficientStock.injEq] at h
      obtain ⟨-, rfl, rfl⟩ := h
      exact hst
    rename_i hst
    split at h
    · rename_i e hrec
      simp only [Except.error.injEq] at h
      subst h
      exact ih _ _ _ _ hrec
    · exact absurd h (by simp)

/-- A `createInvoice` call commits exactly when the acceptance condition holds. -/
theorem createInvoice_isOk_iff (db : DB) (data : CreateInvoiceInput) (t : String)
    (now : ℤ) :
    exceptIsOk (createInvoice db data t now) = createInvoiceAccepts db data t := by
  unfold createInvoice createInvoiceAccepts
  by_cases h1 : data.number.trim = ""
  · simp [h1, exceptIsOk]
  · have h1' : (data.number.trim == "") = false := by simp [h1]
    simp only [if_neg h1, h1', Bool.not_false, Bool.true_and]
    by_cases h2 : data.items.isEmpty
    · simp [h2, exceptIsOk]
    · have h2' : data.items.isEmpty = false := by simp_all
      simp only [h2', if_false, Bool.not_false, Bool.true_and]
      cases hdup : db.invoices.any
          (fun inv => inv.tenantId == t && inv.number == data.number.trim) with
      | true => simp [hdup, exceptIsOk]
      | false =>
        simp only [hdup, Bool.false_eq_true, if_false, Bool.not_false, Bool.true_and]
        rw [← processItems_isOk t (data.applyIva == some true) data.items db.products]
        cases hpi : processItems t (data.applyIva == some true) db.products data.items with
        | error e => rfl
        | ok res =>
          obtain ⟨a, b, c⟩ := res
          rfl

/-- Run-level version of the acceptance characterization. -/
theorem createInvoiceRun_isOk_iff (db : DB) (data : CreateInvoiceInput) (t : String)
    (now : ℤ) :
    exceptIsOk (createInvoiceRun db data t now).1 = createInvoiceAccepts db data t := by
  rw [← createInvoice_isOk_iff db data t now]
  unfold createInvoiceRun
  cases h : createInvoice db data t now with
  | error e => rfl
  | ok res =>
    obtain ⟨a, b, c⟩ := res
    rfl

/-- A `createInvoice` call never reads the per-item `taxRate` field. -/
theorem createInvoice_taxRate_irrelevant (db : DB) (data : CreateInvoiceInput)
    (t : String) (now : ℤ) (f : InvoiceItemInput → Option ℚ) :
    createInvoiceRun db
        { data with items := data.items.map (fun i => { i with taxRate := f i }) }
        t now
      = createInvoiceRun db data t now := by
  have hempty : (data.items.map (fun i => { i with taxRate := f i })).isEmpty
      = data.items.isEmpty := by
    cases data.items <;> rfl
  unfold createInvoiceRun createInvoice
  rw [hempty, processItems_taxRate_irrelevant]

/-- Remapping every product's `defaultTaxRate` changes nothing observable
about a `createInvoice` call (result, invoice, warnings). -/
theorem createInvoice_defaultTaxRate_irrelevant (db : DB) (data : CreateInvoiceInput)
    (t : String) (now : ℤ) (g : String → ℚ) :
    (createInvoiceRun { db with products := db.products.map (setDefaultTaxRate g) }
        data t now).1
      = (createInvoiceRun db data t now).1 := by
  unfold createInvoiceRun createInvoice
  by_cases h1 : data.number.trim = ""
  · simp [h1]
  by_cases h2 : data.items.isEmpty
  · simp [h1, h2]
  cases hdup : db.invoices.any
      (fun inv => inv.tenantId == t && inv.number == data.number.trim) with
  | true => simp [h1, h2, hdup]
  | false =>
    simp only [if_neg h1, h2, Bool.false_eq_true, if_false, hdup]
    rw [processItems_defaultTaxRate_irrelevant]
    cases hpi : processItems t (data.applyIva == some true) db.products data.items with
    | error e => rfl
    | ok res =>
      obtain ⟨a, b, c⟩ := res
      rfl

/-- C1: starting from a state in which every product's stock is `>= 0`,
after any `createInvoice` call every product's stock is still `>= 0`,
whether the call succeeded or threw; a throw commits nothing, and an
insufficient-stock error is only thrown when the available stock really was
below the requested quantity. -/
theorem createInvoice_preserves_stock_nonneg (db : DB) (data : CreateInvoiceInput)
    (t : String) (now : ℤ) (h : ∀ p ∈ db.products, 0 ≤ p.stock) :
    (∀ p ∈ (createInvoiceRun db data t now).2.products, 0 ≤ p.stock) ∧
    (∀ e, (createInvoiceRun db data t now).1 = .error e →
      (createInvoiceRun db data t now).2 = db) ∧
    (∀ nm avail req,
      (createInvoiceRun db data t now).1 = .error (.insufficientStock nm avail req) →
      avail < req) := by
  refine ⟨?_, ?_, ?_⟩
  · unfold createInvoiceRun
    cases hci : createInvoice db data t now with
    | error e => exact h
    | ok res =>
      obtain ⟨db2, inv, w⟩ := res
      obtain ⟨ps, hpi, -⟩ := createInvoice_ok_elim hci
      exact processItems_stock_nonneg _ _ _ _ _ _ _ hpi h
  · intro e he
    exact createInvoiceRun_error_elim he
  · intro nm avail req he
    unfold createInvoiceRun at he
    cases hci : createInvoice db data t now with
    | ok res => rw [hci] at he; exact absurd he (by simp)
    | error e =>
      rw [hci] at he
      simp only [Except.error.injEq] at he
      subst he
      unfold createInvoice at hci
      split at hci
      · exact absurd hci (by simp)
      split at hci
      · exact absurd hci (by simp)
      split at hci
      · exact absurd hci (by simp)
      split at hci
      · rename_i e hpi
        simp only [Except.error.injEq] at hci
        subst hci
        exact processItems_insufficient_elim _ _ _ _ _ _ _ hpi
      · exact absurd hci (by simp)

/-- C2: `createInvoice` is atomic — whenever the call throws (insufficient
stock on a later item, duplicate number, missing product, …) the state
afterwards is exactly the state before: no stock decrement survives and no
invoice or item row is created. -/
theorem createInvoice_atomic (db : DB) (data : CreateInvoiceInput) (t : String)
    (now : ℤ) :
    ∀ e, (createInvoiceRun db data t now).1 = .error e →
      (createInvoiceRun db data t now).2 = db := by
  intro e he
  exact createInvoiceRun_error_elim he

/-- C3: every invoice committed by `createInvoice` satisfies the total
equations: `total = subtotal + taxTotal`, `subtotal = Σ unitPrice*quantity`,
`taxTotal = Σ taxAmount` over its items, and each item satisfies
`totalAmount = unitPrice*quantity + taxAmount`. -/
theorem createInvoice_total_consistency {db : DB} {data : CreateInvoiceInput}
    {t : String} {now : ℤ} {inv : InvoiceRow} {warns : List LowStockWarning}
    {db2 : DB} (h : createInvoiceRun db data t now = (.ok (inv, warns), db2)) :
    inv.total = inv.subtotal + inv.taxTotal ∧
    inv.subtotal = (inv.items.map (fun it => it.unitPrice * it.quantity)).sum ∧
    inv.taxTotal = (inv.items.map InvoiceItemRow.taxAmount).sum ∧
    ∀ it ∈ inv.items, it.totalAmount = it.unitPrice * it.quantity + it.taxAmount := by
  obtain ⟨ps, hpi, -, -, -, hitems, hsub, htax, htot, -⟩ :=
    createInvoice_ok_elim (createInvoiceRun_ok_elim h)
  have hamounts := processItems_amounts _ _ _ _ _ _ _ hpi
  refine ⟨htot, ?_, ?_, ?_⟩
  · rw [hsub, foldl_add_map, hitems, List.map_map]
    rw [zero_add]
    rfl
  · rw [htax, foldl_add_map, hitems, List.map_map]
    rw [zero_add]
    rfl
  · intro it hit
    rw [hitems] at hit
    obtain ⟨p, hp, rfl⟩ := List.mem_map.1 hit
    simpa [mkItemRow] using (hamounts p hp).2

/-- C6: when the committed invoice was requested with `applyIva = true`,
every item's tax is `unitPrice * quantity * IVA_RATE`, otherwise `0`;
neither the request's per-item `taxRate` field nor any per-product
`defaultTaxRate` influences the call. -/
theorem createInvoice_flat_iva {db : DB} {data : CreateInvoiceInput} {t : String}
    {now : ℤ} {inv : InvoiceRow} {warns : List LowStockWarning} {db2 : DB}
    (h : createInvoiceRun db data t now = (.ok (inv, warns), db2)) :
    (∀ it ∈ inv.items, it.taxAmount =
      if data.applyIva == some true then it.unitPrice * it.quantity * IVA_RATE
      else 0) ∧
    (∀ f : InvoiceItemInput → Option ℚ,
      createInvoiceRun db
          { data with items := data.items.map (fun i => { i with taxRate := f i }) }
          t now
        = createInvoiceRun db data t now) ∧
    (∀ g : String → ℚ,
      (createInvoiceRun { db with products := db.products.map (setDefaultTaxRate g) }
          data t now).1
        = (createInvoiceRun db data t now).1) := by
  obtain ⟨ps, hpi, -, -, -, hitems, -⟩ :=
    createInvoice_ok_elim (createInvoiceRun_ok_elim h)
  have hamounts := processItems_amounts _ _ _ _ _ _ _ hpi
  refine ⟨?_, ?_, ?_⟩
  · intro it hit
    rw [hitems] at hit
    obtain ⟨p, hp, rfl⟩ := List.mem_map.1 hit
    simpa [mkItemRow] using (hamounts p hp).1
  · intro f
    exact createInvoice_taxRate_irrelevant db data t now f
  · intro g
    exact createInvoice_defaultTaxRate_irrelevant db data t now g

/-- C7 (counterexample): the caller supplies `unitPrice = 0`, yet the
committed item's unit price is the product's price `100`, not the supplied
`0` — `item.unitPrice ? … : product.price` treats `0` as absent. -/
theorem createInvoice_unitPrice_zero_counterexample :
    cexItemZero.unitPrice = some 0 ∧
    ((createInvoiceRun cexDB cexInputZero "t1" 0).1.map
        (fun r => r.1.items.map InvoiceItemRow.unitPrice)) = .ok [100] ∧
    (100 : ℚ) ≠ 0 := by
  refine ⟨rfl, ?_, by norm_num⟩
  with_unfolding_all rfl

/-- C7 (amended): each committed item's unit price is the caller-supplied
value when that value is present and nonzero; a supplied `0` (JS-falsy) and
an absent value both resolve to the product's price. -/
theorem createInvoice_unitPrice_resolution {db : DB} {data : CreateInvoiceInput}
    {t : String} {now : ℤ} {inv : InvoiceRow} {warns : List LowStockWarning}
    {db2 : DB} (h : createInvoiceRun db data t now = (.ok (inv, warns), db2)) :
    List.Forall₂ (fun (src : InvoiceItemInput) (row : InvoiceItemRow) =>
      ∃ q, priceOf db.products src.productId = some q ∧
        row.unitPrice = (match src.unitPrice with
          | some v => if v = 0 then q else v
          | none => q)) data.items inv.items := by
  obtain ⟨ps, hpi, -, -, -, hitems, -⟩ :=
    createInvoice_ok_elim (createInvoiceRun_ok_elim h)
  have hspec := processItems_spec _ _ _ _ _ _ _ hpi
  rw [hitems, List.forall₂_map_right_iff]
  refine hspec.imp ?_
  intro src p hsp
  obtain ⟨-, -, ⟨q, hq, hup⟩, -, -⟩ := hsp
  refine ⟨q, hq, ?_⟩
  have hrow : (mkItemRow (data.applyIva == some true) p).unitPrice = p.unitPrice := rfl
  rw [hrow, hup]
  cases src.unitPrice <;> rfl

/-- C8: on a committed `createInvoice` call, a low-stock warning naming a
product with a remaining stock `s` is returned exactly for the processed
items whose post-decrement stock is `<= LOW_STOCK_THRESHOLD`; and whether
the call commits at all is characterised by `createInvoiceAccepts`, which
mentions no threshold — warnings never fail the call. -/
theorem createInvoice_low_stock_warnings {db : DB} {data : CreateInvoiceInput}
    {t : String} {now : ℤ} {inv : InvoiceRow} {warns : List LowStockWarning}
    {db2 : DB} (h : createInvoiceRun db data t now = (.ok (inv, warns), db2)) :
    (exceptIsOk (createInvoiceRun db data t now).1 = createInvoiceAccepts db data t) ∧
    ∃ ps : List ProcessedItem,
      processItems t (data.applyIva == some true) db.products data.items
        = .ok (db2.products, ps, warns) ∧
      ∀ (nm : String) (s : ℚ),
        (⟨nm, s⟩ : LowStockWarning) ∈ warns ↔
          ∃ p ∈ ps, p.productName = nm ∧ p.newStock = s ∧
            s ≤ LOW_STOCK_THRESHOLD := by
  refine ⟨createInvoiceRun_isOk_iff db data t now, ?_⟩
  obtain ⟨ps, hpi, -⟩ := createInvoice_ok_elim (createInvoiceRun_ok_elim h)
  refine ⟨ps, hpi, ?_⟩
  intro nm s
  rw [processItems_warnings _ _ _ _ _ _ _ hpi]
  constructor
  · intro hw
    obtain ⟨p, hpmem, hpw⟩ := List.mem_map.1 hw
    obtain ⟨hp, hth⟩ := List.mem_filter.1 hpmem
    simp only [LowStockWarning.mk.injEq] at hpw
    obtain ⟨hnm, hs⟩ := hpw
    refine ⟨p, hp, hnm, hs, ?_⟩
    rw [← hs]
    exact of_decide_eq_true hth
  · intro ⟨p, hp, hnm, hs, hth⟩
    rw [List.mem_map]
    refine ⟨p, List.mem_filter.2 ⟨hp, ?_⟩, ?_⟩
    · rw [decide_eq_true_eq, hs]
      exact hth
    · rw [hnm, hs]

/-- C9: when the database already holds an invoice of the same tenant with
the same (trimmed, non-empty) number, a `createInvoice` call for that tenant
and number throws the duplicate-number conflict error and leaves the
database — the existing invoice and all stocks — untouched. -/
theorem createInvoice_duplicate_number_conflict {db : DB} {data : CreateInvoiceInput}
    {t : String} {now : ℤ} {inv0 : InvoiceRow}
    (hmem : inv0 ∈ db.invoices) (htenant : inv0.tenantId = t)
    (hnumber : data.number = inv0.number) (htrimmed : inv0.number.trim = inv0.number)
    (hne : inv0.number ≠ "") (hitems : data.items ≠ []) :
    (createInvoiceRun db data t now).1 = .error .duplicateNumber ∧
    (createInvoiceRun db data t now).2 = db := by
  have htrim : data.number.trim = inv0.number := by rw [hnumber, htrimmed]
  have h1 : ¬(data.number.trim = "") := by rw [htrim]; exact hne
  have h2 : data.items.isEmpty = false := by
    cases hd : data.items with
    | nil => exact absurd hd hitems
    | cons a l => rfl
  have h3 : db.invoices.any
      (fun i => i.tenantId == t && i.number == data.number.trim) = true := by
    rw [List.any_eq_true]
    refine ⟨inv0, hmem, ?_⟩
    rw [Bool.and_eq_true, beq_iff_eq, beq_iff_eq, htrim, htenant]
    exact ⟨rfl, rfl⟩
  have hci : createInvoice db data t now = .error .duplicateNumber := by
    unfold createInvoice
    rw [if_neg h1, h2, if_neg (by simp), if_pos h3]
  constructor <;> unfold createInvoiceRun <;> rw [hci]

/-- C4: the closeout's `salesTotal` is the sum of `total` over exactly the
tenant's invoices with status `ISSUED` or `PAID` issued at or after the
prior closeout's closing time (all of them when the register has no prior
closeout); the filter never mentions the payment method, rewriting payment
methods does not change the aggregation, and `DRAFT`/`CANCELLED` invoices
never contribute. -/
theorem closeDayShift_salesTotal {db : DB} {t : String} {regId : ℤ} {user : String}
    {fb : ℚ} {sbOpt : Option ℚ} {now : ℤ} {res : CloseShiftResult} {db2 : DB}
    (h : closeDayShift db t regId user fb sbOpt now none = (.ok res, db2)) :
    res.salesTotal = ((db.invoices.filter (fun i =>
        i.tenantId == t && (i.status == .ISSUED || i.status == .PAID)
          && (match (lastCloseoutFor db.closeouts t regId).map
                ShiftCloseout.closingTime with
              | some d => decide (d ≤ i.issueDate)
              | none => true))).map InvoiceRow.total).sum ∧
    (⟨db.nextCloseoutId, t, now, regId, res.startingBalance, fb, res.salesTotal,
      user⟩ : ShiftCloseout) ∈ db2.closeouts ∧
    (∀ pm : InvoiceRow → PaymentMethod,
      calculateSalesSinceLastCloseout
          (db.invoices.map (fun i => { i with paymentMethod := pm i })) t regId
          ((lastCloseoutFor db.closeouts t regId).map ShiftCloseout.closingTime) none
        = res.salesTotal) ∧
    (∀ extra : List InvoiceRow,
      (∀ i ∈ extra, i.status = .DRAFT ∨ i.status = .CANCELLED) →
      calculateSalesSinceLastCloseout (db.invoices ++ extra) t regId
          ((lastCloseoutFor db.closeouts t regId).map ShiftCloseout.closingTime) none
        = res.salesTotal) := by
  obtain ⟨-, -, hsales, -, hcmem, -, -⟩ := closeDayShift_ok_elim h
  refine ⟨?_, hcmem, ?_, ?_⟩
  · rw [hsales, calculateSales_eq_sum]
    rfl
  · intro pm
    rw [calculateSales_paymentMethod_irrelevant]
    exact hsales.symm
  · intro extra hex
    rw [calculateSales_ignores_nonsales _ _ _ _ _ hex]
    exact hsales.symm

/-- C5: the closeout's recorded `startingBalance` is the caller-supplied
value when one is provided; otherwise the `finalBalance` of the register's
most recent prior closeout; otherwise the register's `currentBalance`. -/
theorem closeDayShift_startingBalance {db : DB} {t : String} {regId : ℤ}
    {user : String} {fb : ℚ} {sbOpt : Option ℚ} {now : ℤ} {fault : Option String}
    {res : CloseShiftResult} {db2 : DB}
    (h : closeDayShift db t regId user fb sbOpt now fault = (.ok res, db2)) :
    (∀ v, sbOpt = some v → res.startingBalance = v) ∧
    (∀ c, sbOpt = none → lastCloseoutFor db.closeouts t regId = some c →
      res.startingBalance = c.finalBalance) ∧
    (∀ r, sbOpt = none → lastCloseoutFor db.closeouts t regId = none →
      db.registers.find? (fun x => x.id == regId && x.tenantId == t) = some r →
      res.startingBalance = r.currentBalance) := by
  obtain ⟨-, -, -, hsb, -, -, -⟩ := closeDayShift_ok_elim h
  refine ⟨?_, ?_, ?_⟩
  · intro v hv
    rw [hsb, hv]
    rfl
  · intro c h0 hlc
    rw [hsb, h0]
    simp only [resolveStartingBalance, hlc]
  · intro r h0 hlc hfind
    rw [hsb, h0]
    simp only [resolveStartingBalance, registerBalanceView, hlc, hfind]

/-- C10: whatever error the invoice aggregation throws, it is swallowed:
`closeDayShift` still succeeds (given the register lookup succeeds) and
records a `ShiftCloseout` with `salesTotal = 0` instead of propagating the
failure. -/
theorem closeDayShift_swallows_aggregation_errors {db : DB} {t : String}
    {regId : ℤ} {r : CashRegister} (user : String) (fb : ℚ) (sbOpt : Option ℚ)
    (now : ℤ) (msg : String)
    (hfind : db.registers.find? (fun x => x.id == regId && x.tenantId == t) = some r) :
    ∃ res db2, closeDayShift db t regId user fb sbOpt now (some msg) = (.ok res, db2) ∧
      res.salesTotal = 0 ∧
      (⟨db.nextCloseoutId, t, now, regId, res.startingBalance, fb, 0, user⟩ :
        ShiftCloseout) ∈ db2.closeouts := by
  obtain ⟨res, db2, heq⟩ :=
    closeDayShift_ok_of_register_found user fb sbOpt now (some msg) hfind
  obtain ⟨-, -, hsales, -, hcmem, -, -⟩ := closeDayShift_ok_elim heq
  have hzero : res.salesTotal = 0 := by
    rw [hsales]
    rfl
  refine ⟨res, db2, heq, hzero, ?_⟩
  rw [← hzero]
  exact hcmem

/-- C1 witness: product at stock 3, invoice of 2 — stocks stay nonnegative. -/
theorem createInvoice_preserves_stock_nonneg_witness :
    (∀ p ∈ w1DB.products, 0 ≤ p.stock) ∧
    ((∀ p ∈ (createInvoiceRun w1DB w1Input "t1" 0).2.products, 0 ≤ p.stock) ∧
     (∀ e, (createInvoiceRun w1DB w1Input "t1" 0).1 = .error e →
       (createInvoiceRun w1DB w1Input "t1" 0).2 = w1DB) ∧
     (∀ nm avail req, (createInvoiceRun w1DB w1Input "t1" 0).1
         = .error (.insufficientStock nm avail req) → avail < req)) :=
  ⟨by with_unfolding_all decide,
   createInvoice_preserves_stock_nonneg w1DB w1Input "t1" 0
     (by with_unfolding_all decide)⟩

/-- C2 witness: item 1 would decrement stock 5→3, item 2 fails stock
validation — the call throws and the state is exactly the initial one. -/
theorem createInvoice_atomic_witness :
    (createInvoiceRun w2DB w2Input "t1" 0).1
      = .error (.insufficientStock "Frijol" 1 5) ∧
    (createInvoiceRun w2DB w2Input "t1" 0).2 = w2DB :=
  ⟨by with_unfolding_all rfl,
   createInvoice_atomic w2DB w2Input "t1" 0 (.insufficientStock "Frijol" 1 5)
     (by with_unfolding_all rfl)⟩

/-- C3 witness: a committed two-item invoice with IVA satisfies the total
equations. -/
theorem createInvoice_total_consistency_witness :
    ∃ inv warns db2,
      createInvoiceRun w3DB w3Input "t1" 0 = (.ok (inv, warns), db2) ∧
      (inv.total = inv.subtotal + inv.taxTotal ∧
       inv.subtotal = (inv.items.map (fun it => it.unitPrice * it.quantity)).sum ∧
       inv.taxTotal = (inv.items.map InvoiceItemRow.taxAmount).sum ∧
       ∀ it ∈ inv.items,
         it.totalAmount = it.unitPrice * it.quantity + it.taxAmount) := by
  have hex : ∃ inv warns db2,
      createInvoiceRun w3DB w3Input "t1" 0 = (.ok (inv, warns), db2) :=
    ⟨_, _, _, by with_unfolding_all rfl⟩
  obtain ⟨inv, warns, db2, hrun⟩ := hex
  exact ⟨inv, warns, db2, hrun, createInvoice_total_consistency hrun⟩

/-- C4 witness: of a PAID invoice at 200 (after the prior closeout), a DRAFT
one, and an ISSUED one issued before the prior closeout, only the first
counts: salesTotal is 200. -/
theorem closeDayShift_salesTotal_witness :
    ∃ res db2,
      closeDayShift w4DB "t1" 7 "u" 999 none 200 none = (.ok res, db2) ∧
      res.salesTotal = 200 := by
  have hex : ∃ res db2,
      closeDayShift w4DB "t1" 7 "u" 999 none 200 none = (.ok res, db2) :=
    ⟨_, _, by with_unfolding_all rfl⟩
  obtain ⟨res, db2, hrun⟩ := hex
  have hc := closeDayShift_salesTotal hrun
  refine ⟨res, db2, hrun, ?_⟩
  rw [hc.1]
  with_unfolding_all rfl

/-- C5 witness: the prior closeout ended with `finalBalance = 500`; a
closeout with no explicit starting balance records `startingBalance = 500`. -/
theorem closeDayShift_startingBalance_witness :
    ∃ res db2,
      closeDayShift w5DB "t1" 7 "u" 999 none 200 none = (.ok res, db2) ∧
      res.startingBalance = 500 := by
  have hex : ∃ res db2,
      closeDayShift w5DB "t1" 7 "u" 999 none 200 none = (.ok res, db2) :=
    ⟨_, _, by with_unfolding_all rfl⟩
  obtain ⟨res, db2, hrun⟩ := hex
  have hc := closeDayShift_startingBalance hrun
  have hlc : lastCloseoutFor w5DB.closeouts "t1" 7 = some w4Close := by
    with_unfolding_all rfl
  refine ⟨res, db2, hrun, ?_⟩
  rw [hc.2.1 w4Close rfl hlc]
  rfl

/-- C6 witness: with `applyIva = true`, the committed item's tax follows the
flat 19% formula. -/
theorem createInvoice_flat_iva_witness :
    ∃ inv warns db2,
      createInvoiceRun w6DB w6Input "t1" 0 = (.ok (inv, warns), db2) ∧
      ∀ it ∈ inv.items, it.taxAmount =
        (if w6Input.applyIva == some true then it.unitPrice * it.quantity * IVA_RATE
         else 0) := by
  have hex : ∃ inv warns db2,
      createInvoiceRun w6DB w6Input "t1" 0 = (.ok (inv, warns), db2) :=
    ⟨_, _, _, by with_unfolding_all rfl⟩
  obtain ⟨inv, warns, db2, hrun⟩ := hex
  exact ⟨inv, warns, db2, hrun, (createInvoice_flat_iva hrun).1⟩

/-- C7 witness (amended claim): a nonzero caller price (50) is kept, an
absent one resolves to the product price. -/
theorem createInvoice_unitPrice_resolution_witness :
    ∃ inv warns db2,
      createInvoiceRun w7DB w7Input "t1" 0 = (.ok (inv, warns), db2) ∧
      List.Forall₂ (fun (src : InvoiceItemInput) (row : InvoiceItemRow) =>
        ∃ q, priceOf w7DB.products src.productId = some q ∧
          row.unitPrice = (match src.unitPrice with
            | some v => if v = 0 then q else v
            | none => q)) w7Input.items inv.items := by
  have hex : ∃ inv warns db2,
      createInvoiceRun w7DB w7Input "t1" 0 = (.ok (inv, warns), db2) :=
    ⟨_, _, _, by with_unfolding_all rfl⟩
  obtain ⟨inv, warns, db2, hrun⟩ := hex
  exact ⟨inv, warns, db2, hrun, createInvoice_unitPrice_resolution hrun⟩

/-- C8 witness: stock 6 consuming 2 yields the warning (remaining 4), stock
10 consuming 2 yields none (remaining 8), and the call still commits. -/
theorem createInvoice_low_stock_warnings_witness :
    ((createInvoiceRun w8DB w8Input "t1" 0).1.map (fun r => r.2))
        = .ok [⟨"Arroz", 4⟩] ∧
    ∃ inv warns db2,
      createInvoiceRun w8DB w8Input "t1" 0 = (.ok (inv, warns), db2) ∧
      ((exceptIsOk (createInvoiceRun w8DB w8Input "t1" 0).1
          = createInvoiceAccepts w8DB w8Input "t1") ∧
       ∃ ps : List ProcessedItem,
         processItems "t1" (w8Input.applyIva == some true) w8DB.products
             w8Input.items = .ok (db2.products, ps, warns) ∧
         ∀ (nm : String) (s : ℚ),
           (⟨nm, s⟩ : LowStockWarning) ∈ warns ↔
             ∃ p ∈ ps, p.productName = nm ∧ p.newStock = s ∧
               s ≤ LOW_STOCK_THRESHOLD) := by
  refine ⟨by with_unfolding_all rfl, ?_⟩
  have hex : ∃ inv warns db2,
      createInvoiceRun w8DB w8Input "t1" 0 = (.ok (inv, warns), db2) :=
    ⟨_, _, _, by with_unfolding_all rfl⟩
  obtain ⟨inv, warns, db2, hrun⟩ := hex
  exact ⟨inv, warns, db2, hrun, createInvoice_low_stock_warnings hrun⟩

/-- C9 witness: re-using number `F1` of the same tenant throws the conflict
error and leaves the database untouched. -/
theorem createInvoice_duplicate_number_conflict_witness :
    (createInvoiceRun w9DB w9Input "t1" 0).1 = .error .duplicateNumber ∧
    (createInvoiceRun w9DB w9Input "t1" 0).2 = w9DB := by
  have hmem : w9Existing ∈ w9DB.invoices := by with_unfolding_all decide
  have htrimmed : w9Existing.number.trim = w9Existing.number := by
    with_unfolding_all decide
  have hne : w9Existing.number ≠ "" := by decide
  have hitems : w9Input.items ≠ [] := by with_unfolding_all decide
  exact createInvoice_duplicate_number_conflict hmem rfl rfl htrimmed hne hitems

/-- C10 witness: with an aggregation fault injected, the closeout still
succeeds and records `salesTotal = 0` (the tenant has a PAID invoice worth
200 that a fault-free aggregation would count). -/
theorem closeDayShift_swallows_aggregation_errors_witness :
    w10DB.registers.find? (fun x => x.id == 3 && x.tenantId == "t1")
        = some w10Reg ∧
    ∃ res db2,
      closeDayShift w10DB "t1" 3 "u" 999 none 200 (some "boom") = (.ok res, db2) ∧
      res.salesTotal = 0 ∧
      (⟨w10DB.nextCloseoutId, "t1", 200, 3, res.startingBalance, 999, 0, "u"⟩ :
        ShiftCloseout) ∈ db2.closeouts :=
  ⟨by with_unfolding_all rfl,
   closeDayShift_swallows_aggregation_errors "u" 999 none 200 "boom"
     (by with_unfolding_all rfl)⟩

end PymesWeb
